import Mathlib

/-!
Shallow embedding of `src/glim_ros/rviz_viewer.cpp` (glim_ros2).

Rigid transforms (Eigen::Isometry3d) are modelled by an arbitrary group `P`
(rigid transforms form a group: composable and invertible); points
(Eigen::Vector4d) by an arbitrary type `Pt` acted on by `act : P → Pt → Pt`
(the application `pose * point`).  Point clouds (gtsam_ext frames) are lists
of points; timestamps are integers.  Publish/broadcast calls are modelled as
effect values collected in lists, in the order the source emits them.
-/

namespace Glim

/-- Frame identifiers, from glim's `FrameID` enum used in `frontend_new_frame`. -/
inductive FrameID where
  | LIDAR
  | IMU
  | WORLD
deriving DecidableEq, Repr

/-- A pose/frame event from the odometry frontend (`EstimationFrame`): the
fields of the external glim type that `rviz_viewer.cpp` reads. -/
structure EstimationFrame (P : Type) (Pt : Type) where
  frame_id : FrameID
  stamp : Int
  T_world_imu : P
  T_lidar_imu : P
  frame : List Pt
deriving DecidableEq

/-- A submap from the global mapping backend (external glim type): the fields
`rviz_viewer.cpp` reads (`odom_frames`, `T_world_origin`,
`T_origin_endpoint_R`, `frame`). -/
structure SubMap (P : Type) (Pt : Type) where
  odom_frames : List (EstimationFrame P Pt)
  T_world_origin : P
  T_origin_endpoint_R : P
  frame : List Pt
deriving DecidableEq

/-- Modelled from the spec: the state of glim's `TrajectoryManager`
(AlignmentTracker), whose source is outside this repository.  It owns the
anchor (timestamp, world pose, matching odometry pose) and the latest
odometry sample. -/
structure TrajectoryManager (P : Type) where
  anchor_stamp : Int
  anchor_world : P
  anchor_odom : P
  latest_stamp : Int
  latest_odom : P
deriving DecidableEq

namespace TrajectoryManager

variable {P : Type} [Group P]

/-- Modelled from the spec: `add_odometry_sample` records the latest odometry
pose (the world estimate is derived by composition, see `odom2world`). -/
def add_odom (s : TrajectoryManager P) (t : Int) (p : P) : TrajectoryManager P :=
  { s with latest_stamp := t, latest_odom := p }

/-- Modelled from the spec: the instantaneous odometry-to-world offset,
`anchor_world_pose ∘ anchor_odom_pose⁻¹`. -/
def get_T_world_odom (s : TrajectoryManager P) : P :=
  s.anchor_world * s.anchor_odom⁻¹

/-- Modelled from the spec: compose an odometry-frame pose into world
coordinates, `anchor_world_pose ∘ anchor_odom_pose⁻¹ ∘ odom_pose`. -/
def odom2world (s : TrajectoryManager P) (p : P) : P :=
  s.anchor_world * s.anchor_odom⁻¹ * p

/-- Modelled from the spec: `update_anchor` replaces the anchor with the given
timestamp and world pose, pairing it with the latest known odometry sample
(no interpolation). -/
def update_anchor (s : TrajectoryManager P) (t : Int) (w : P) : TrajectoryManager P :=
  { s with anchor_stamp := t, anchor_world := w, anchor_odom := s.latest_odom }

end TrajectoryManager

/-- Fixed frame-id strings assigned in the `RvizViewer` constructor. -/
def imu_frame_id : String := "imu"

/-- Fixed frame-id string for the lidar frame. -/
def lidar_frame_id : String := "lidar"

/-- Fixed frame-id string for the odometry frame. -/
def odom_frame_id : String := "odom"

/-- Fixed frame-id string for the world frame. -/
def world_frame_id : String := "world"

/-- Subscriber counts of the three per-frame outputs read by
`frontend_new_frame` via `get_subscription_count()`. -/
structure SubCounts where
  points : Nat
  odom : Nat
  pose : Nat
deriving DecidableEq

/-- Observable effects of `frontend_new_frame`: point-cloud publish, transform
broadcast, odometry publish, pose publish, in emission order. -/
inductive FrontEvent (P : Type) (Pt : Type) where
  | publishPoints (frameId : String) (stamp : Int) (pts : List Pt)
  | sendTransform (parent : String) (child : String) (stamp : Int) (t : P)
  | publishOdom (stamp : Int) (frameId : String) (childId : String) (t : P)
  | publishPose (stamp : Int) (frameId : String) (t : P)
deriving DecidableEq

/-- Whether an effect is a transform broadcast. -/
def FrontEvent.isSendTransform {P Pt : Type} : FrontEvent P Pt → Bool
  | .sendTransform _ _ _ _ => true
  | _ => false

variable {P : Type} [Group P] {Pt : Type}

/-- `RvizViewer::frontend_new_frame`: publishes the frame's points if
subscribed, records the odometry sample in the trajectory manager under the
lock, broadcasts the three transforms unconditionally, then publishes
odometry and pose records if subscribed.  Returns the updated trajectory
state and the effects in emission order. -/
def frontend_new_frame (subs : SubCounts) (traj : TrajectoryManager P)
    (new_frame : EstimationFrame P Pt) :
    TrajectoryManager P × List (FrontEvent P Pt) :=
  let pointsEffs : List (FrontEvent P Pt) :=
    if subs.points ≠ 0 then
      let fid := match new_frame.frame_id with
        | FrameID.LIDAR => lidar_frame_id
        | FrameID.IMU => imu_frame_id
        | FrameID.WORLD => world_frame_id
      [FrontEvent.publishPoints fid new_frame.stamp new_frame.frame]
    else []
  let T_odom_imu := new_frame.T_world_imu
  let T_lidar_imu := new_frame.T_lidar_imu
  let traj' := traj.add_odom new_frame.stamp new_frame.T_world_imu
  let T_world_odom := traj'.get_T_world_odom
  let T_world_imu := traj'.odom2world T_odom_imu
  let transforms : List (FrontEvent P Pt) :=
    [FrontEvent.sendTransform odom_frame_id imu_frame_id new_frame.stamp T_odom_imu,
     FrontEvent.sendTransform imu_frame_id lidar_frame_id new_frame.stamp T_lidar_imu,
     FrontEvent.sendTransform world_frame_id odom_frame_id new_frame.stamp T_world_odom]
  let odomEffs : List (FrontEvent P Pt) :=
    if subs.odom ≠ 0 then
      [FrontEvent.publishOdom new_frame.stamp odom_frame_id imu_frame_id T_odom_imu]
    else []
  let poseEffs : List (FrontEvent P Pt) :=
    if subs.pose ≠ 0 then
      [FrontEvent.publishPose new_frame.stamp world_frame_id T_world_imu]
    else []
  (traj', pointsEffs ++ transforms ++ odomEffs ++ poseEffs)

/-! ### Deferred task queue (`invoke` / `spin_once`)

The queue state is the list `invoke_queue`; tasks are abstract values `τ`.
`spin_once` is modelled by the trace of events it produces: it acquires
`invoke_queue_mutex` on entry (a `lock_guard`), runs every queued task in
order, clears the list, and releases the lock when the guard is destroyed. -/

/-- Events of a queue drain: mutex acquisition/release and task execution. -/
inductive QEvent (τ : Type) where
  | acq
  | rel
  | run (t : τ)
deriving DecidableEq

/-- `RvizViewer::invoke`: appends a task at the tail of `invoke_queue`. -/
def invoke {τ : Type} (invoke_queue : List τ) (task : τ) : List τ :=
  invoke_queue ++ [task]

/-- The `for` loop body of `spin_once`: run each queued task in order. -/
def run_tasks {τ : Type} : List τ → List (QEvent τ)
  | [] => []
  | t :: ts => QEvent.run t :: run_tasks ts

/-- `RvizViewer::spin_once`: under the `lock_guard` on `invoke_queue_mutex`,
runs every task of `invoke_queue` in order and clears the list; the lock is
released when the guard leaves scope.  Returns the event trace and the queue
state afterwards. -/
def spin_once {τ : Type} (invoke_queue : List τ) : List (QEvent τ) × List τ :=
  (QEvent.acq :: (run_tasks invoke_queue ++ [QEvent.rel]), [])

/-- Modelled from the spec: the drain the spec describes for comparison —
swap the list with an empty one under the lock, release, then run the
captured tasks outside the lock. -/
def drain_and_run_spec {τ : Type} (invoke_queue : List τ) : List (QEvent τ) × List τ :=
  (QEvent.acq :: QEvent.rel :: run_tasks invoke_queue, [])

/-- The tasks a trace executes, in execution order. -/
def executedTasks {τ : Type} : List (QEvent τ) → List τ
  | [] => []
  | QEvent.run t :: es => t :: executedTasks es
  | _ :: es => executedTasks es

/-- Whether some task in the trace runs while the lock is held, starting from
`d` currently-held acquisitions. -/
def anyRunLocked {τ : Type} : List (QEvent τ) → Nat → Bool
  | [], _ => false
  | QEvent.acq :: es, d => anyRunLocked es (d + 1)
  | QEvent.rel :: es, d => anyRunLocked es (d - 1)
  | QEvent.run _ :: es, d => decide (0 < d) || anyRunLocked es d

/-! ### Publisher scheduler loop

The thread spawned in the `RvizViewer` constructor: each iteration measures
the elapsed time of `spin_once` and sleeps only when it stayed below the
10 ms target.  Durations are in milliseconds, non-negative by type. -/

/-- The target period `std::chrono::milliseconds(10)` of the viewer thread. -/
def expected_ms : Nat := 10

/-- Sleep duration of one loop iteration given the elapsed work time `t2 - t1`
in milliseconds: `if (t2 - t1 < expected) sleep_for(expected - (t2 - t1))`,
otherwise no sleep at all. -/
def sleep_duration (elapsed : Nat) : Nat :=
  if elapsed < expected_ms then expected_ms - elapsed else 0

/-! ### Global map handler (`globalmap_on_update_submaps`) and deferred rebuild

The synchronous part runs on the estimator thread: it takes `submaps.back()`,
reads its last odometry frame's stamp, updates the trajectory anchor under
the lock, captures every submap's `T_world_origin` by value, and enqueues the
deferred task.  `.back()` on an empty vector is undefined behaviour, modelled
as `none`.  The deferred task appends `latest_submap->frame` to
`this->submaps`, stops if the map output has no subscriber, and otherwise
rebuilds and publishes the merged cloud; reading `submap_poses[i]` past the
end of the captured vector is undefined behaviour, modelled as `none`. -/

/-- Events of the synchronous part of the submap handler, in order. -/
inductive SyncEvent (P : Type) where
  | updateAnchor (stamp : Int) (pose : P)
  | enqueue
deriving DecidableEq

/-- Events of the deferred rebuild task, in order: the append to the retained
submap list, the rebuild (with the computed total point count), and the
merged-map publish. -/
inductive MapEvent (Pt : Type) where
  | append
  | rebuilt (total_num_points : Nat)
  | publishMap (frameId : String) (pts : List Pt)
deriving DecidableEq

/-- A deferred rebuild task as captured by the lambda in
`globalmap_on_update_submaps`: the latest submap (shared pointer) and the
by-value copy `submap_poses` of every submap's `T_world_origin`. -/
abbrev PendingTask (P : Type) (Pt : Type) : Type :=
  SubMap P Pt × List P

/-- The merged-point computation of the deferred task: for the `i`-th retained
submap, each point is transformed by `submap_poses[i]` and written
sequentially after the previous submaps' points.  `std::transform` over an
empty point range never evaluates `submap_poses[i]`, so an empty submap makes
no pose access; a pose access past the end of the captured vector is
undefined behaviour (`none`). -/
def rebuild (act : P → Pt → Pt) : List (List Pt) → List P → Option (List Pt)
  | [], _ => some []
  | f :: fs, [] => if f.isEmpty then rebuild act fs [] else none
  | f :: fs, p :: ps => (rebuild act fs ps).map (fun rest => f.map (act p) ++ rest)

/-- The specification-side characterisation of the merged cloud: the retained
point sets each transformed by the matching captured pose, concatenated in
retention order. -/
def mergedPoints (act : P → Pt → Pt) (retained : List (List Pt)) (poses : List P) :
    List Pt :=
  (List.zipWith (fun f T => f.map (act T)) retained poses).flatten

/-- Byte offset (in points) at which the `i`-th retained submap's points start
in the merged cloud: the accumulated sizes of the earlier submaps. -/
def offsetOf (retained : List (List Pt)) (i : Nat) : Nat :=
  ((retained.take i).map List.length).sum

/-- The deferred task body (the lambda enqueued via `invoke`): appends the
latest submap's frame to the retained list, returns early if `map_pub` has no
subscriber, otherwise computes the total point count, rebuilds the merged
cloud and publishes it.  Returns the retained list afterwards and the event
trace, or `none` on an out-of-bounds `submap_poses` access. -/
def globalmap_deferred_task (act : P → Pt → Pt) (mapSub : Nat)
    (task : PendingTask P Pt) (retained : List (List Pt)) :
    Option (List (List Pt) × List (MapEvent Pt)) :=
  if mapSub = 0 then
    some (retained ++ [task.1.frame], [MapEvent.append])
  else
    match rebuild act (retained ++ [task.1.frame]) task.2 with
    | none => none
    | some merged =>
      some (retained ++ [task.1.frame],
        [MapEvent.append,
         MapEvent.rebuilt (((retained ++ [task.1.frame]).map List.length).sum),
         MapEvent.publishMap world_frame_id merged])

/-- `RvizViewer::globalmap_on_update_submaps`, synchronous part: reads
`submaps.back()` and its `odom_frames.back()->stamp` (undefined on empty —
`none`), updates the trajectory anchor with the world-frame endpoint pose
`T_world_origin * T_origin_endpoint_R`, captures `submap_poses`, and enqueues
the deferred task.  Returns the new trajectory state, the ordered event
trace, and the queue after the enqueue. -/
def globalmap_on_update_submaps (submaps : List (SubMap P Pt))
    (traj : TrajectoryManager P) (queue : List (PendingTask P Pt)) :
    Option (TrajectoryManager P × List (SyncEvent P) × List (PendingTask P Pt)) :=
  match submaps.getLast? with
  | none => none
  | some latest_submap =>
    match latest_submap.odom_frames.getLast? with
    | none => none
    | some lastOdom =>
      let stamp_endpoint_R := lastOdom.stamp
      let T_world_endpoint_R := latest_submap.T_world_origin * latest_submap.T_origin_endpoint_R
      let traj' := traj.update_anchor stamp_endpoint_R T_world_endpoint_R
      let submap_poses := submaps.map (fun s => s.T_world_origin)
      some (traj',
        [SyncEvent.updateAnchor stamp_endpoint_R T_world_endpoint_R, SyncEvent.enqueue],
        invoke queue (latest_submap, submap_poses))

/-- State shared between the submap handler and the deferred tasks: the
trajectory manager and the retained submap frames `this->submaps`. -/
structure SysState (P : Type) (Pt : Type) where
  traj : TrajectoryManager P
  retained : List (List Pt)
deriving DecidableEq

/-- Draining the queued map tasks in order on the viewer thread, threading the
retained list through and concatenating the event traces; `none` on undefined
behaviour of any task. -/
def drain_map_tasks (act : P → Pt → Pt) (mapSub : Nat) (retained : List (List Pt)) :
    List (PendingTask P Pt) → Option (List (List Pt) × List (MapEvent Pt))
  | [] => some (retained, [])
  | t :: ts =>
    match globalmap_deferred_task act mapSub t retained with
    | none => none
    | some (retained', evs) =>
      (drain_map_tasks act mapSub retained' ts).map (fun r => (r.1, evs ++ r.2))

/-- One submap-batch event followed by one drain of its deferred task: the
synchronous handler runs (enqueueing into an empty queue), then the queue is
drained on the viewer thread.  `none` on undefined behaviour in either part. -/
def processBatch (act : P → Pt → Pt) (mapSub : Nat) (st : SysState P Pt)
    (batch : List (SubMap P Pt)) :
    Option (SysState P Pt × List (MapEvent Pt)) :=
  match globalmap_on_update_submaps batch st.traj [] with
  | none => none
  | some (traj', _, queue) =>
    (drain_map_tasks act mapSub st.retained queue).map
      (fun r => ({ traj := traj', retained := r.1 }, r.2))

/-- A sequence of submap-batch events, each drained before the next. -/
def processBatches (act : P → Pt → Pt) (mapSub : Nat) (st : SysState P Pt) :
    List (List (SubMap P Pt)) → Option (SysState P Pt)
  | [] => some st
  | b :: bs =>
    match processBatch act mapSub st b with
    | none => none
    | some (st', _) => processBatches act mapSub st' bs

/-! ### Concrete instantiation used for witnesses

Rigid transforms are instantiated by the group `Multiplicative ℤ`
(composition is addition of offsets) acting on points `ℤ` by translation —
enough to distinguish poses and observe transformations concretely. -/

/-- Translation action of `Multiplicative ℤ` on integer points. -/
def actZ : Multiplicative ℤ → ℤ → ℤ :=
  fun g x => Multiplicative.toAdd g + x

/-- A concrete estimation frame. -/
def frame0 : EstimationFrame (Multiplicative ℤ) ℤ :=
  { frame_id := FrameID.IMU, stamp := 4, T_world_imu := Multiplicative.ofAdd 2,
    T_lidar_imu := Multiplicative.ofAdd 3, frame := [1, 2] }

/-- A concrete initial trajectory-manager state. -/
def traj0 : TrajectoryManager (Multiplicative ℤ) :=
  { anchor_stamp := 0, anchor_world := 1, anchor_odom := 1,
    latest_stamp := 0, latest_odom := 1 }

/-- A concrete submap with one odometry frame and one point. -/
def submapA : SubMap (Multiplicative ℤ) ℤ :=
  { odom_frames := [frame0], T_world_origin := Multiplicative.ofAdd 5,
    T_origin_endpoint_R := Multiplicative.ofAdd 1, frame := [10] }

/-- A second concrete submap, distinct from `submapA`. -/
def submapB : SubMap (Multiplicative ℤ) ℤ :=
  { odom_frames := [frame0], T_world_origin := Multiplicative.ofAdd 7,
    T_origin_endpoint_R := Multiplicative.ofAdd 1, frame := [20] }

/-- A concrete submap whose odometry-frame list is empty. -/
def submapNoOdom : SubMap (Multiplicative ℤ) ℤ :=
  { odom_frames := [], T_world_origin := Multiplicative.ofAdd 5,
    T_origin_endpoint_R := Multiplicative.ofAdd 1, frame := [10] }

/-- The initial system state: fresh trajectory manager, no retained submaps. -/
def sysState0 : SysState (Multiplicative ℤ) ℤ :=
  { traj := traj0, retained := [] }

/-! ### Helper lemmas -/

/-- Folding `invoke` over a task list appends it to the queue. -/
theorem foldl_invoke {τ : Type} (ts q : List τ) : ts.foldl invoke q = q ++ ts := by
  induction ts generalizing q with
  | nil => simp
  | cons t ts ih => simp [invoke, ih, List.append_assoc]

/-- Tasks executed by a run trace followed by further events. -/
theorem executedTasks_run_tasks_append {τ : Type} (q : List τ) (es : List (QEvent τ)) :
    executedTasks (run_tasks q ++ es) = q ++ executedTasks es := by
  induction q with
  | nil => simp [run_tasks]
  | cons t ts ih => simp [run_tasks, executedTasks, ih]

/-- A `rel` event executes no task. -/
theorem executedTasks_rel {τ : Type} : executedTasks ([QEvent.rel] : List (QEvent τ)) = [] := rfl

/-- Characterisation of the synchronous submap handler when the batch and the
latest submap's odometry-frame list are non-empty. -/
theorem globalmap_sync_eq (submaps : List (SubMap P Pt)) (traj : TrajectoryManager P)
    (queue : List (PendingTask P Pt)) (latest_submap : SubMap P Pt)
    (hlast : submaps.getLast? = some latest_submap)
    (lastOdom : EstimationFrame P Pt)
    (hodom : latest_submap.odom_frames.getLast? = some lastOdom) :
    globalmap_on_update_submaps submaps traj queue
      = some (traj.update_anchor lastOdom.stamp
                (latest_submap.T_world_origin * latest_submap.T_origin_endpoint_R),
              [SyncEvent.updateAnchor lastOdom.stamp
                (latest_submap.T_world_origin * latest_submap.T_origin_endpoint_R),
               SyncEvent.enqueue],
              queue ++ [(latest_submap, submaps.map (fun s => s.T_world_origin))]) := by
  simp only [globalmap_on_update_submaps, invoke, hlast, hodom]

/-- Inversion of the synchronous submap handler: success pins down the batch's
last submap, its last odometry frame, the anchor update and the enqueued
task. -/
theorem globalmap_sync_inv {submaps : List (SubMap P Pt)} {traj : TrajectoryManager P}
    {queue : List (PendingTask P Pt)} {traj' : TrajectoryManager P}
    {evs : List (SyncEvent P)} {queue' : List (PendingTask P Pt)}
    (h : globalmap_on_update_submaps submaps traj queue = some (traj', evs, queue')) :
    ∃ latest_submap lastOdom,
      submaps.getLast? = some latest_submap
      ∧ latest_submap.odom_frames.getLast? = some lastOdom
      ∧ traj' = traj.update_anchor lastOdom.stamp
          (latest_submap.T_world_origin * latest_submap.T_origin_endpoint_R)
      ∧ queue' = queue ++ [(latest_submap, submaps.map (fun s => s.T_world_origin))] := by
  unfold globalmap_on_update_submaps at h
  split at h
  · exact Option.noConfusion h
  · next latest hlast =>
    split at h
    · exact Option.noConfusion h
    · next lastOdom hodom =>
      simp only [invoke, Option.some.injEq, Prod.mk.injEq] at h
      exact ⟨latest, lastOdom, hlast, hodom, h.1.symm, h.2.2.symm⟩

omit [Group P] in
/-- When the pose vector covers every retained submap, the rebuild succeeds
and produces exactly the merged points. -/
theorem rebuild_covered (act : P → Pt → Pt) (retained : List (List Pt)) (poses : List P)
    (h : retained.length ≤ poses.length) :
    rebuild act retained poses = some (mergedPoints act retained poses) := by
  induction retained generalizing poses with
  | nil => simp [rebuild, mergedPoints]
  | cons f fs ih =>
    cases poses with
    | nil => simp at h
    | cons p ps =>
      simp only [List.length_cons, Nat.succ_le_succ_iff] at h
      simp [rebuild, mergedPoints, ih ps h, List.zipWith]

omit [Group P] in
/-- Length of the merged cloud: the sum of the retained submaps' sizes. -/
theorem mergedPoints_length (act : P → Pt → Pt) (retained : List (List Pt)) (poses : List P)
    (h : retained.length ≤ poses.length) :
    (mergedPoints act retained poses).length = (retained.map List.length).sum := by
  induction retained generalizing poses with
  | nil => simp [mergedPoints]
  | cons f fs ih =>
    cases poses with
    | nil => simp at h
    | cons p ps =>
      simp only [List.length_cons, Nat.succ_le_succ_iff] at h
      have hmp : mergedPoints act (f :: fs) (p :: ps)
          = f.map (act p) ++ mergedPoints act fs ps := rfl
      rw [hmp]
      simp [ih ps h]

omit [Group P] in
/-- The slice of the merged cloud at the `i`-th accumulated offset is the
`i`-th retained submap transformed by the `i`-th captured pose. -/
theorem mergedPoints_slice (act : P → Pt → Pt) (retained : List (List Pt)) (poses : List P)
    (h : retained.length ≤ poses.length) (i : Nat) (hi : i < retained.length) :
    ((mergedPoints act retained poses).drop (offsetOf retained i)).take
        ((retained.get ⟨i, hi⟩).length)
      = (retained.get ⟨i, hi⟩).map (act (poses.get ⟨i, lt_of_lt_of_le hi h⟩)) := by
  induction retained generalizing poses i with
  | nil => exact absurd hi (Nat.not_lt_zero i)
  | cons f fs ih =>
    cases poses with
    | nil => simp at h
    | cons p ps =>
      simp only [List.length_cons, Nat.succ_le_succ_iff] at h
      cases i with
      | zero =>
        have hmp : mergedPoints act (f :: fs) (p :: ps)
            = f.map (act p) ++ mergedPoints act fs ps := rfl
        simp only [offsetOf, List.take_zero, List.map_nil, List.sum_nil, List.drop_zero,
          List.get, hmp]
        exact List.take_left' (by simp)
      | succ j =>
        have hj : j < fs.length := Nat.lt_of_succ_lt_succ hi
        have hmp : mergedPoints act (f :: fs) (p :: ps)
            = f.map (act p) ++ mergedPoints act fs ps := rfl
        have hoff : offsetOf (f :: fs) (j + 1) = f.length + offsetOf fs j := by
          simp [offsetOf, List.take_succ_cons]
        have hdrop : (mergedPoints act (f :: fs) (p :: ps)).drop (offsetOf (f :: fs) (j + 1))
            = (mergedPoints act fs ps).drop (offsetOf fs j) := by
          rw [hmp, hoff]
          have := @List.drop_append _ (f.map (act p)) (mergedPoints act fs ps) (offsetOf fs j)
          simpa using this
        rw [hdrop]
        exact ih ps h j hj

omit [Group P] in
/-- When every retained submap is non-empty, a successful rebuild forces the
captured pose vector to cover the whole retained list. -/
theorem rebuild_isSome_length (act : P → Pt → Pt) (retained : List (List Pt)) (poses : List P)
    (hne : ∀ f ∈ retained, f ≠ [])
    (hs : (rebuild act retained poses).isSome = true) :
    retained.length ≤ poses.length := by
  induction retained generalizing poses with
  | nil => simp
  | cons f fs ih =>
    cases poses with
    | nil =>
      have hf : f ≠ [] := hne f (List.mem_cons_self f fs)
      simp [rebuild, List.isEmpty_iff, hf] at hs
    | cons p ps =>
      cases hr : rebuild act fs ps with
      | none => simp [rebuild, hr] at hs
      | some m =>
        have hsm : (rebuild act fs ps).isSome = true := by simp [hr]
        have := ih ps (fun g hg => hne g (List.mem_cons_of_mem f hg)) hsm
        simpa using Nat.succ_le_succ this

omit [Group P] in
/-- The retained list a successful deferred task returns is the old one with
the task's latest submap frame appended. -/
theorem globalmap_deferred_task_retained (act : P → Pt → Pt) (mapSub : Nat)
    (task : PendingTask P Pt) (retained retained' : List (List Pt))
    (evs : List (MapEvent Pt))
    (h : globalmap_deferred_task act mapSub task retained = some (retained', evs)) :
    retained' = retained ++ [task.1.frame] := by
  unfold globalmap_deferred_task at h
  split at h
  · simp only [Option.some.injEq, Prod.mk.injEq] at h
    exact h.1.symm
  · split at h
    · exact Option.noConfusion h
    · simp only [Option.some.injEq, Prod.mk.injEq] at h
      exact h.1.symm

/-- A successful `processBatch` step appends exactly the batch's last submap's
frame to the retained list. -/
theorem processBatch_retained (act : P → Pt → Pt) (mapSub : Nat) (st : SysState P Pt)
    (batch : List (SubMap P Pt)) (st' : SysState P Pt) (evs : List (MapEvent Pt))
    (h : processBatch act mapSub st batch = some (st', evs)) :
    ∃ latest_submap, batch.getLast? = some latest_submap
      ∧ st'.retained = st.retained ++ [latest_submap.frame] := by
  unfold processBatch at h
  split at h
  · exact Option.noConfusion h
  · next traj' evs' queue hsync =>
    obtain ⟨latest, lastOdom, hlast, hodom, htraj, hqueue⟩ := globalmap_sync_inv hsync
    subst hqueue
    refine ⟨latest, hlast, ?_⟩
    simp only [List.nil_append, drain_map_tasks] at h
    split at h
    · exact Option.noConfusion h
    · next retained' tevs htask =>
      have hr := globalmap_deferred_task_retained act mapSub _ st.retained retained' tevs htask
      have h' := Option.some.inj h
      have hret : st'.retained = retained' := by
        have := congrArg (fun q => q.1.retained) h'
        simpa using this.symm
      rw [hret, hr]

/-! ### Claim theorems -/

/-- C1, counterexample: the claim states that a new-frame event with no
subscribers on any output makes no transform publish call; in
`frontend_new_frame` the three `sendTransform` broadcasts are unconditional,
so with all subscriber counts zero a transform broadcast still occurs. -/
theorem frontend_no_subscribers_cex :
    ((frontend_new_frame ⟨0, 0, 0⟩ traj0 frame0).2.any FrontEvent.isSendTransform) = true := by
  decide

/-- C1, amended: a new-frame event with no subscribers on any output makes no
point, odometry or pose publish call — every emitted effect is one of the
three unconditional transform broadcasts — while the trajectory manager still
records the odometry sample (latest pose and stamp, from which the world
estimate is derived). -/
theorem frontend_no_subscribers_updates_trajectory
    (subs : SubCounts) (traj : TrajectoryManager P) (f : EstimationFrame P Pt)
    (hp : subs.points = 0) (ho : subs.odom = 0) (hq : subs.pose = 0) :
    (frontend_new_frame subs traj f).1 = traj.add_odom f.stamp f.T_world_imu
    ∧ (frontend_new_frame subs traj f).2 =
        [FrontEvent.sendTransform odom_frame_id imu_frame_id f.stamp f.T_world_imu,
         FrontEvent.sendTransform imu_frame_id lidar_frame_id f.stamp f.T_lidar_imu,
         FrontEvent.sendTransform world_frame_id odom_frame_id f.stamp
           ((traj.add_odom f.stamp f.T_world_imu).get_T_world_odom)]
    ∧ ∀ e ∈ (frontend_new_frame subs traj f).2, e.isSendTransform = true := by
  have h2 : (frontend_new_frame subs traj f).2 =
      [FrontEvent.sendTransform odom_frame_id imu_frame_id f.stamp f.T_world_imu,
       FrontEvent.sendTransform imu_frame_id lidar_frame_id f.stamp f.T_lidar_imu,
       FrontEvent.sendTransform world_frame_id odom_frame_id f.stamp
         ((traj.add_odom f.stamp f.T_world_imu).get_T_world_odom)] := by
    simp [frontend_new_frame, hp, ho, hq]
  refine ⟨rfl, h2, ?_⟩
  rw [h2]
  intro e he
  simp only [List.mem_cons, List.not_mem_nil, or_false] at he
  rcases he with rfl | rfl | rfl <;> rfl

/-- C1, witness of the amended theorem at a concrete frame with all
subscriber counts zero. -/
theorem frontend_no_subscribers_updates_trajectory_witness :
    (frontend_new_frame ⟨0, 0, 0⟩ traj0 frame0).1
      = traj0.add_odom frame0.stamp frame0.T_world_imu :=
  (frontend_no_subscribers_updates_trajectory ⟨0, 0, 0⟩ traj0 frame0 rfl rfl rfl).1

/-- C2, counterexample: the claim states the drain executes the captured
tasks without holding the queue lock; in `spin_once` the `lock_guard` on
`invoke_queue_mutex` is held for the whole loop, so a task runs while the
lock is held. -/
theorem spin_once_runs_under_lock_cex :
    anyRunLocked (spin_once [(0 : Nat)]).1 0 = true := by
  decide

/-- C2, amended: the drain executes the captured tasks in original enqueue
order and leaves the queue empty, but it does so while holding the queue
lock for the whole drain (no swap-and-release first), so an enqueue issued
while tasks are executing blocks until the drain completes and joins the
next drain. -/
theorem spin_once_drains_under_lock {τ : Type} (q : List τ) :
    (spin_once q).1 = QEvent.acq :: (run_tasks q ++ [QEvent.rel])
    ∧ executedTasks (spin_once q).1 = q
    ∧ (spin_once q).2 = []
    ∧ (q ≠ [] → anyRunLocked (spin_once q).1 0 = true) := by
  refine ⟨rfl, ?_, rfl, ?_⟩
  · show executedTasks (QEvent.acq :: (run_tasks q ++ [QEvent.rel])) = q
    simp [executedTasks, executedTasks_run_tasks_append]
  · intro hne
    cases q with
    | nil => exact absurd rfl hne
    | cons t ts => simp [spin_once, run_tasks, anyRunLocked]

/-- C2, witness of the amended theorem on a concrete two-task queue. -/
theorem spin_once_drains_under_lock_witness :
    executedTasks (spin_once [(1 : Nat), 2]).1 = [1, 2]
    ∧ anyRunLocked (spin_once [(1 : Nat), 2]).1 0 = true :=
  ⟨(spin_once_drains_under_lock [1, 2]).2.1,
   (spin_once_drains_under_lock [1, 2]).2.2.2 (by decide)⟩

/-- C3, counterexample: the claim states the deferred task appends every new
submap of the batch; the task only appends `latest_submap->frame`, so for a
batch of two fresh submaps the first one's frame is never retained. -/
theorem globalmap_appends_only_last_cex :
    ((processBatch actZ 0 sysState0 [submapA, submapB]).map fun r => r.1.retained)
        = some [submapB.frame]
    ∧ submapA.frame ∉ [submapB.frame] := by
  exact ⟨by decide, by decide⟩

/-- C3, amended: each submap-batch event's deferred task appends exactly the
batch's last submap's frame (by shared reference) to the retained collection;
the collection is append-only, so after a sequence of batch events it holds
exactly the last submap frame of each event, in event order. -/
theorem globalmap_retained_accumulates (act : P → Pt → Pt) (mapSub : Nat) :
    (∀ (st : SysState P Pt) (batch : List (SubMap P Pt)) st' evs,
        processBatch act mapSub st batch = some (st', evs) →
        ∃ latest_submap, batch.getLast? = some latest_submap
          ∧ st'.retained = st.retained ++ [latest_submap.frame])
    ∧ (∀ (batches : List (List (SubMap P Pt))) (st st' : SysState P Pt),
        processBatches act mapSub st batches = some st' →
        st'.retained = st.retained
          ++ batches.filterMap (fun b => b.getLast?.map (fun s => s.frame))) := by
  constructor
  · exact fun st batch st' evs h => processBatch_retained act mapSub st batch st' evs h
  · intro batches
    induction batches with
    | nil =>
      intro st st' h
      obtain rfl := Option.some.inj h
      simp
    | cons b bs ih =>
      intro st st' h
      unfold processBatches at h
      split at h
      · exact Option.noConfusion h
      · next st1 evs1 hb =>
        obtain ⟨latest, hlast, hret⟩ := processBatch_retained act mapSub st b st1 evs1 hb
        rw [ih st1 st' h, hret]
        simp [List.filterMap_cons, hlast, List.append_assoc]

/-- C3, witness of the amended theorem on a concrete two-submap batch. -/
theorem globalmap_retained_accumulates_witness :
    ∃ latest_submap, ([submapA, submapB].getLast? = some latest_submap)
      ∧ ({ traj := traj0.update_anchor 4 (Multiplicative.ofAdd 8),
           retained := [[(20 : ℤ)]] } : SysState (Multiplicative ℤ) ℤ).retained
          = sysState0.retained ++ [latest_submap.frame] :=
  (globalmap_retained_accumulates actZ 0).1 sysState0 [submapA, submapB]
    { traj := traj0.update_anchor 4 (Multiplicative.ofAdd 8), retained := [[(20 : ℤ)]] }
    [MapEvent.append] (by decide)

/-- C4: the captured-pose accesses of the deferred rebuild are in bounds for
every retained submap when (and, with non-empty submaps, only when) the
triggering batch carries at least as many submaps as the retained collection
holds after the append; and for the sequence of two batch events each
carrying one distinct single-point submap, the second rebuild reads the
captured pose array out of bounds. -/
theorem globalmap_pose_access_bounds :
    (∀ {Q Qt : Type} (act : Q → Qt → Qt) (retained : List (List Qt)) (poses : List Q),
        retained.length ≤ poses.length → (rebuild act retained poses).isSome = true)
    ∧ (∀ {Q Qt : Type} (act : Q → Qt → Qt) (retained : List (List Qt)) (poses : List Q),
        (∀ f ∈ retained, f ≠ []) → (rebuild act retained poses).isSome = true →
          retained.length ≤ poses.length)
    ∧ ((processBatch actZ 1 sysState0 [submapA]).bind
        (fun r => processBatch actZ 1 r.1 [submapB])) = none := by
  refine ⟨?_, ?_, by decide⟩
  · intro Q Qt act retained poses h
    rw [rebuild_covered act retained poses h]
    rfl
  · intro Q Qt act retained poses hne hs
    exact rebuild_isSome_length act retained poses hne hs

/-- C4, witness: both bounds directions applied at a concrete one-submap,
one-pose instance. -/
theorem globalmap_pose_access_bounds_witness :
    (rebuild actZ [[(1 : ℤ)]] [Multiplicative.ofAdd (2 : ℤ)]).isSome = true
    ∧ [[(1 : ℤ)]].length ≤ [Multiplicative.ofAdd (2 : ℤ)].length :=
  ⟨globalmap_pose_access_bounds.1 actZ _ _ (by decide),
   globalmap_pose_access_bounds.2.1 actZ _ _ (by decide) (by decide)⟩

omit [Group P] in
/-- C5: when the captured poses cover the retained list, the rebuild succeeds
and produces the merged cloud whose point count is the sum of the retained
submaps' point counts, whose slice at each accumulated offset is the matching
submap transformed by its captured world pose, and which is identical across
repeated rebuilds of the same state. -/
theorem rebuild_merged_map_invariants (act : P → Pt → Pt)
    (retained : List (List Pt)) (poses : List P)
    (h : retained.length ≤ poses.length) :
    rebuild act retained poses = some (mergedPoints act retained poses)
    ∧ (mergedPoints act retained poses).length = (retained.map List.length).sum
    ∧ (∀ i (hi : i < retained.length),
        ((mergedPoints act retained poses).drop (offsetOf retained i)).take
            ((retained.get ⟨i, hi⟩).length)
          = (retained.get ⟨i, hi⟩).map (act (poses.get ⟨i, lt_of_lt_of_le hi h⟩)))
    ∧ (∀ m₁ m₂, rebuild act retained poses = some m₁ →
        rebuild act retained poses = some m₂ → m₁ = m₂) :=
  ⟨rebuild_covered act retained poses h,
   mergedPoints_length act retained poses h,
   fun i hi => mergedPoints_slice act retained poses h i hi,
   fun _ _ h₁ h₂ => Option.some.inj (h₁.symm.trans h₂)⟩

/-- C5, witness at two concrete submaps and covering poses. -/
theorem rebuild_merged_map_invariants_witness :
    rebuild actZ [[(1 : ℤ), 2], [3]] [Multiplicative.ofAdd (1 : ℤ), Multiplicative.ofAdd 10]
      = some (mergedPoints actZ [[(1 : ℤ), 2], [3]]
          [Multiplicative.ofAdd (1 : ℤ), Multiplicative.ofAdd 10])
    ∧ (mergedPoints actZ [[(1 : ℤ), 2], [3]]
          [Multiplicative.ofAdd (1 : ℤ), Multiplicative.ofAdd 10]).length
        = ([[(1 : ℤ), 2], [3]].map List.length).sum :=
  ⟨(rebuild_merged_map_invariants actZ _ _ (by decide)).1,
   (rebuild_merged_map_invariants actZ _ _ (by decide)).2.1⟩

/-- C6: for a non-empty batch whose last submap has odometry frames, the
synchronous part of the handler updates the trajectory anchor keyed exactly
by that submap's last odometry-sample stamp and its world endpoint pose
`T_world_origin * T_origin_endpoint_R`, and the anchor update precedes the
enqueue of the deferred task in the event trace. -/
theorem globalmap_sync_anchor_update (submaps : List (SubMap P Pt))
    (traj : TrajectoryManager P) (queue : List (PendingTask P Pt))
    (h1 : submaps ≠ []) (h2 : (submaps.getLast h1).odom_frames ≠ []) :
    globalmap_on_update_submaps submaps traj queue
      = some (traj.update_anchor ((submaps.getLast h1).odom_frames.getLast h2).stamp
                ((submaps.getLast h1).T_world_origin * (submaps.getLast h1).T_origin_endpoint_R),
              [SyncEvent.updateAnchor ((submaps.getLast h1).odom_frames.getLast h2).stamp
                ((submaps.getLast h1).T_world_origin * (submaps.getLast h1).T_origin_endpoint_R),
               SyncEvent.enqueue],
              invoke queue (submaps.getLast h1, submaps.map (fun s => s.T_world_origin))) := by
  exact globalmap_sync_eq submaps traj queue (submaps.getLast h1)
    (List.getLast?_eq_getLast submaps h1) ((submaps.getLast h1).odom_frames.getLast h2)
    (List.getLast?_eq_getLast _ h2)

/-- C6, witness on a concrete one-submap batch. -/
theorem globalmap_sync_anchor_update_witness :
    globalmap_on_update_submaps [submapA] traj0
        ([] : List (PendingTask (Multiplicative ℤ) ℤ))
      = some (traj0.update_anchor 4 (Multiplicative.ofAdd 6),
              [SyncEvent.updateAnchor 4 (Multiplicative.ofAdd 6), SyncEvent.enqueue],
              [(submapA, [Multiplicative.ofAdd 5])]) := by
  have h := globalmap_sync_anchor_update [submapA] traj0 [] (by decide) (by decide)
  exact h

/-- C7: enqueueing tasks `T1..Tn` via `invoke` and draining once with
`spin_once` executes exactly those tasks in enqueue order, each exactly once,
and leaves the queue empty. -/
theorem invoke_spin_once_fifo {τ : Type} (ts : List τ) :
    executedTasks (spin_once (ts.foldl invoke [])).1 = ts
    ∧ (spin_once (ts.foldl invoke [])).2 = [] := by
  constructor
  · rw [foldl_invoke ts []]
    show executedTasks (QEvent.acq :: (run_tasks ([] ++ ts) ++ [QEvent.rel])) = [] ++ ts
    simp [executedTasks, executedTasks_run_tasks_append]
  · rfl

/-- C8: every scheduler iteration sleeps exactly `max 0 (10 ms − elapsed)`:
never a negative duration, and whenever the cycle's work takes at least the
10 ms target the sleep is zero so the next iteration starts immediately. -/
theorem scheduler_sleep_never_negative (elapsed : Nat) :
    ((sleep_duration elapsed : Int) = max 0 ((expected_ms : Int) - (elapsed : Int)))
    ∧ (expected_ms ≤ elapsed → sleep_duration elapsed = 0) := by
  unfold sleep_duration expected_ms
  constructor
  · split
    · next h => rw [max_eq_right (by omega)]; omega
    · next h => rw [max_eq_left (by omega)]; omega
  · intro h
    rw [if_neg (by omega)]

/-- C8, witness at a 25 ms cycle. -/
theorem scheduler_sleep_never_negative_witness :
    ((sleep_duration 25 : Int) = max 0 ((expected_ms : Int) - ((25 : Nat) : Int)))
    ∧ sleep_duration 25 = 0 :=
  ⟨(scheduler_sleep_never_negative 25).1,
   (scheduler_sleep_never_negative 25).2 (by decide)⟩

/-- C9, counterexample: the claim states batch non-emptiness alone makes
every access of the synchronous handler in range; a non-empty batch whose
last submap has an empty odometry-frame list still reaches the undefined
`odom_frames.back()` access. -/
theorem globalmap_nonempty_batch_oob_cex :
    globalmap_on_update_submaps [submapNoOdom] traj0
        ([] : List (PendingTask (Multiplicative ℤ) ℤ)) = none
    ∧ [submapNoOdom] ≠ ([] : List (SubMap (Multiplicative ℤ) ℤ)) :=
  ⟨rfl, by decide⟩

/-- C9, amended: when the batch is non-empty and its last submap's
odometry-frame list is non-empty, the synchronous handler executes without
any out-of-bounds container access (the undefined-input branch is
unreachable). -/
theorem globalmap_sync_in_bounds (submaps : List (SubMap P Pt))
    (traj : TrajectoryManager P) (queue : List (PendingTask P Pt))
    (h1 : submaps ≠ []) (h2 : (submaps.getLast h1).odom_frames ≠ []) :
    (globalmap_on_update_submaps submaps traj queue).isSome = true := by
  rw [globalmap_sync_eq submaps traj queue (submaps.getLast h1)
    (List.getLast?_eq_getLast submaps h1) ((submaps.getLast h1).odom_frames.getLast h2)
    (List.getLast?_eq_getLast _ h2)]
  rfl

/-- C9, witness of the amended theorem on a concrete one-submap batch. -/
theorem globalmap_sync_in_bounds_witness :
    (globalmap_on_update_submaps [submapA] traj0
        ([] : List (PendingTask (Multiplicative ℤ) ℤ))).isSome = true :=
  globalmap_sync_in_bounds [submapA] traj0 [] (by decide) (by decide)

omit [Group P] in
/-- C10: with no subscriber on the merged-map output the deferred task still
appends the batch's submap frame but emits nothing further (no rebuild, no
publish); with a subscriber present (and the captured poses covering the
retained list) the full rebuild runs and exactly one merged-map publish
occurs. -/
theorem deferred_task_subscriber_gating (act : P → Pt → Pt)
    (task : PendingTask P Pt) (retained : List (List Pt)) :
    globalmap_deferred_task act 0 task retained
      = some (retained ++ [task.1.frame], [MapEvent.append])
    ∧ (∀ mapSub : Nat, mapSub ≠ 0 →
        (retained ++ [task.1.frame]).length ≤ task.2.length →
        globalmap_deferred_task act mapSub task retained
          = some (retained ++ [task.1.frame],
              [MapEvent.append,
               MapEvent.rebuilt (((retained ++ [task.1.frame]).map List.length).sum),
               MapEvent.publishMap world_frame_id
                 (mergedPoints act (retained ++ [task.1.frame]) task.2)])) := by
  constructor
  · simp [globalmap_deferred_task]
  · intro mapSub hm hcov
    unfold globalmap_deferred_task
    rw [if_neg hm, rebuild_covered act _ _ hcov]

/-- C10, witness on a concrete task with and without a subscriber. -/
theorem deferred_task_subscriber_gating_witness :
    globalmap_deferred_task actZ 0 (submapA, [Multiplicative.ofAdd (5 : ℤ)]) []
      = some ([] ++ [submapA.frame], [MapEvent.append])
    ∧ globalmap_deferred_task actZ 1 (submapA, [Multiplicative.ofAdd (5 : ℤ)]) []
      = some ([] ++ [submapA.frame],
          [MapEvent.append,
           MapEvent.rebuilt (((([] : List (List ℤ)) ++ [submapA.frame]).map List.length).sum),
           MapEvent.publishMap world_frame_id
             (mergedPoints actZ (([] : List (List ℤ)) ++ [submapA.frame])
               [Multiplicative.ofAdd (5 : ℤ)])]) :=
  ⟨(deferred_task_subscriber_gating actZ (submapA, [Multiplicative.ofAdd (5 : ℤ)]) []).1,
   (deferred_task_subscriber_gating actZ (submapA, [Multiplicative.ofAdd (5 : ℤ)]) []).2 1
     (by decide) (by decide)⟩

end Glim
